import Mathlib

/-!
Verification of the request pipeline of `@nlfmt/rapid` (src/src/index.ts and
src/src/error.ts), a typesafe routing layer over express.

The embedding models JavaScript objects as insertion-ordered association
lists over an inductive value type `Val`.  The pieces translated from the
source are:

* `RapidError` / `sendError`            — src/src/error.ts
* `validateToOutput`                    — `RapidImpl.validateToOutput`
* `runMw`                               — the middleware loop of `RapidImpl._handler`
* `paramsStage` / `processRest` /
  `processRequest`                      — the request closure of `RapidImpl._handler`
* `middlewareCombine` / `combineRun`    — the exported `middleware` combinator

`processRequest` additionally records an execution trace (`Event`) of which
validators, middleware steps and handler invocations actually ran, and the
list of calls made to the configured error logger; both are pure
observations of the same control flow as the source.
-/

set_option autoImplicit false

namespace Rapid

/-- JavaScript values as the pipeline observes them:
`undef` is JavaScript `undefined`, `obj` an insertion-ordered object. -/
inductive Val where
  | undef
  | null
  | str (s : String)
  | num (n : Int)
  | bool (b : Bool)
  | obj (fields : List (String × Val))

/-- A JavaScript object: insertion-ordered list of key/value pairs
(every runtime object this pipeline builds has pairwise-distinct keys). -/
abbrev Store := List (String × Val)

/-- Property read: first binding of the key, if any. -/
def lookupJs : Store → String → Option Val
  | [], _ => none
  | (k, v) :: rest, key => if k = key then some v else lookupJs rest key

/-- Property read with JavaScript semantics: absent keys read as `undefined`. -/
def getJs (s : Store) (key : String) : Val :=
  (lookupJs s key).getD Val.undef

/-- Property write: overwrite the first binding in place, else append
(JavaScript keeps the original insertion position on overwrite). -/
def setJs : Store → String → Val → Store
  | [], key, v => [(key, v)]
  | (k, w) :: rest, key, v =>
    if k = key then (k, v) :: rest else (k, w) :: setJs rest key v

/-- `Object.assign(c, d)`: assign every binding of `d` onto `c` in order. -/
def assignStore (c d : Store) : Store :=
  d.foldl (fun acc kv => setJs acc kv.1 kv.2) c

/-- View a value as an object (`req.params` is always an object in express). -/
def Val.asObj : Val → Store
  | .obj s => s
  | _ => []

/-- The error envelope of src/src/error.ts (`RapidErrorDef` / `RapidError`):
`{ name, code, message?, cause? }`. -/
structure RapidError where
  name : String
  code : Nat
  message : Option String
  cause : Option Val

/-- What got written to the express response: either `res.send(body)` of a
successful handler (express default status 200), or `sendError`. -/
inductive Response where
  | success (body : Val)
  | error (e : RapidError)

/-- `sendError(res, error)` of src/src/error.ts:
`res.status(error.code).send(error)` — the envelope itself is the body. -/
def sendError (e : RapidError) : Response :=
  Response.error e

/-- The HTTP status actually written: `sendError` uses the envelope's
`code`; a plain `res.send` leaves the express default 200. -/
def Response.status : Response → Nat
  | .success _ => 200
  | .error e => e.code

/-- Outcome of `validate(schema, value)` of @typeschema/main:
`{success: true, data}` or `{success: false, issues}`.  The issue list is
opaque to the pipeline, so it is carried as a single `Val`. -/
inductive VResult where
  | ok (data : Val)
  | err (issues : Val)

def VResult.isOk : VResult → Bool
  | .ok _ => true
  | .err _ => false

/-- A schema is an opaque validator: value in, parse result out. -/
abbrev Schema := Val → VResult

/-- The `{ key, issues }` failure record `validateToOutput` returns. -/
structure VFail where
  key : String
  issues : Val

/-- `RapidImpl.validateToOutput(schemas, input, output)` (index.ts:223-236):
iterate the schema map in insertion order; skip absent schemas
(`if (!schema) continue`); on the first failing key return `{key, issues}`;
on success write `result.data` to `output[key]` and continue.  The third
component of the result is the list of keys whose schema was actually
executed, in order (an observation, used for the temporal claims). -/
def validateToOutput : List (String × Option Schema) → Store → Store →
    Option VFail × Store × List String
  | [], _, output => (none, output, [])
  | (_, none) :: rest, input, output => validateToOutput rest input output
  | (key, some schema) :: rest, input, output =>
    match schema (getJs input key) with
    | .err issues => (some ⟨key, issues⟩, output, [key])
    | .ok data =>
      let r := validateToOutput rest input (setJs output key data)
      (r.1, r.2.1, key :: r.2.2)

/-- What an awaited middleware call does: it may mutate the context it was
handed (the resulting context is carried in each constructor), and then
either return a value (an object of additions or `undefined`), throw a
`RapidError`, or throw any other value. -/
inductive MwRet where
  | undef
  | obj (d : Store)

inductive MwStep where
  | ret (r : MwRet) (c : Store)
  | throwRapid (e : RapidError) (c : Store)
  | throwOther (v : Val) (c : Store)

abbrev Middleware := Store → MwStep

/-- The caller-side `Object.assign(context, data)`: assigning `undefined`
is a no-op, assigning an object merges its bindings. -/
def assignRet (c : Store) : MwRet → Store
  | .undef => c
  | .obj d => assignStore c d

/-- One call to `RapidStatic.errorLogger(message, err)`. -/
abbrev LogEvent := String × Val

/-- An execution-trace event: which validator keys ran, which middleware
steps (by index) ran, and whether the handler ran. -/
inductive Event where
  | validatedParam (key : String)
  | validatedChannel (key : String)
  | ranMiddleware (i : Nat)
  | ranHandler
deriving DecidableEq

/-- Outcome of the middleware loop: either all steps returned and the final
context is handed on, or a step threw and an error response halts the
request.  In both cases the trace lists the indices of the steps that ran. -/
inductive MwLoopOut where
  | done (c : Store) (tr : List Event)
  | halt (resp : Response) (logs : List LogEvent) (tr : List Event)

/-- The `for (const m of middleware)` loop of `_handler` (index.ts:287-305):
await the step on the current context, `Object.assign` its return onto the
context; a thrown `RapidError` is sent as-is; any other thrown value is
logged and answered with the generic 500 envelope. -/
def runMw : List Middleware → Store → Nat → MwLoopOut
  | [], c, _ => .done c []
  | m :: rest, c, i =>
    match m c with
    | .ret r c' =>
      match runMw rest (assignRet c' r) (i + 1) with
      | .done cf tr => .done cf (.ranMiddleware i :: tr)
      | .halt resp logs tr => .halt resp logs (.ranMiddleware i :: tr)
    | .throwRapid e _ => .halt (sendError e) [] [.ranMiddleware i]
    | .throwOther v _ =>
      .halt
        (sendError ⟨"Internal Server Error", 500,
          some "An error occurred while processing the request", none⟩)
        [("An unexpected middleware error occurred while processing the request", v)]
        [.ranMiddleware i]

/-- What an awaited handler call does. -/
inductive HOutcome where
  | ret (body : Val)
  | throwRapid (e : RapidError)
  | throwOther (v : Val)

abbrev Handler := Store → HOutcome

/-- One registered route as `_handler` captures it (index.ts:238-248):
the destructured `params` validator, the rest of the validator object in
declaration order, the middleware list and the final handler. -/
structure Route where
  paramsValidator : Option (List (String × Option Schema))
  validators : List (String × Option Schema)
  middleware : List Middleware
  handler : Handler

/-- The context literal of index.ts:251-257:
`{ req, body: req.body, query: req.query, params: req.params, cookies: req.cookies }`. -/
def initialContext (req : Store) : Store :=
  [("req", Val.obj req),
   ("body", getJs req "body"),
   ("query", getJs req "query"),
   ("params", getJs req "params"),
   ("cookies", getJs req "cookies")]

def reqParams (req : Store) : Store :=
  (getJs req "params").asObj

/-- Result of the params-validation block (index.ts:259-275): either the
request fails with the `{key, issues}` of the first bad param, or it passes
and the (possibly rewritten, since `context.params` aliases `req.params`)
request and context flow on. -/
inductive ParamsStage where
  | fail (f : VFail) (tr : List Event)
  | pass (req' context' : Store) (tr : List Event)

def paramsStage (route : Route) (req : Store) : ParamsStage :=
  match route.paramsValidator with
  | none => .pass req (initialContext req) []
  | some pv =>
    match validateToOutput pv (reqParams req) (reqParams req) with
    | (some f, _, tr) => .fail f (tr.map Event.validatedParam)
    | (none, ps', tr) =>
      .pass (setJs req "params" (Val.obj ps'))
        (setJs (initialContext req) "params" (Val.obj ps'))
        (tr.map Event.validatedParam)

/-- Result of one whole request: the single response written, the calls
made to the error logger, and the execution trace. -/
structure RunResult where
  response : Response
  logs : List LogEvent
  trace : List Event

/-- The request pipeline after params validation (index.ts:277-321):
validate body/query/cookies against `req` writing into the context, then
run the middleware loop, then the handler. -/
def processRest (route : Route) (req context : Store) (tr0 : List Event) : RunResult :=
  match validateToOutput route.validators req context with
  | (some f, _, tr) =>
    ⟨sendError ⟨"Bad Request", 400, some ("Invalid " ++ f.key), some f.issues⟩,
     [], tr0 ++ tr.map Event.validatedChannel⟩
  | (none, context', tr) =>
    let tr1 := tr0 ++ tr.map Event.validatedChannel
    match runMw route.middleware context' 0 with
    | .halt resp logs mtr => ⟨resp, logs, tr1 ++ mtr⟩
    | .done cf mtr =>
      match route.handler cf with
      | .ret body => ⟨Response.success body, [], tr1 ++ mtr ++ [.ranHandler]⟩
      | .throwRapid e => ⟨sendError e, [], tr1 ++ mtr ++ [.ranHandler]⟩
      | .throwOther v =>
        ⟨sendError ⟨"Internal Server Error", 500,
           some "An error occurred while processing the request", none⟩,
         [("An error occurred while processing the request", v)],
         tr1 ++ mtr ++ [.ranHandler]⟩

/-- The full request closure registered by `_handler` (index.ts:250-321). -/
def processRequest (route : Route) (req : Store) : RunResult :=
  match paramsStage route req with
  | .fail f tr =>
    ⟨sendError ⟨"Not Found", 404,
       some ("Invalid route param " ++ f.key), some f.issues⟩, [], tr⟩
  | .pass req' context' tr0 => processRest route req' context' tr0

/-- The inner loop of the exported `middleware` combinator
(index.ts:370-375): await each component in order on the shared context,
`Object.assign` its return onto it; a throw propagates out; after the loop
the combined middleware returns `undefined`. -/
def combineRun : List Middleware → Store → MwStep
  | [], c => .ret .undef c
  | m :: rest, c =>
    match m c with
    | .ret r c' => combineRun rest (assignRet c' r)
    | .throwRapid e c' => .throwRapid e c'
    | .throwOther v c' => .throwOther v c'

/-- The exported `middleware` combinator (index.ts:365-376):
`if (fns.length === 1) return fns[0]`, otherwise the looping closure. -/
def middlewareCombine : List Middleware → Middleware
  | [m] => m
  | fns => fun c => combineRun fns c

/-- Run a list of middleware assuming every step returns normally
(`none` as soon as one throws); used to state which context a given step
receives.  This is the specification-side sequential merge: await each
component in declaration order and merge its returned object into the
shared context. -/
def runAll : List Middleware → Store → Option Store
  | [], c => some c
  | m :: rest, c =>
    match m c with
    | .ret r c' => runAll rest (assignRet c' r)
    | .throwRapid _ _ => none
    | .throwOther _ _ => none

/-- The trace of a successfully completed middleware chain of length `n`
started at index `i`. -/
def mwEvents (i n : Nat) : List Event :=
  (List.range' i n).map Event.ranMiddleware

/-- The keys of the schema map that carry an actual schema, in insertion
order — the keys `validateToOutput` executes when nothing fails. -/
def declaredKeys (schemas : List (String × Option Schema)) : List String :=
  schemas.filterMap (fun p => p.2.map (fun _ => p.1))

/-- The sanitized envelope both catch blocks of `_handler` send for a
non-`RapidError` throw. -/
def genericError : RapidError :=
  ⟨"Internal Server Error", 500,
   some "An error occurred while processing the request", none⟩

/-- The message `_handler` logs for a middleware throw. -/
def mwLogMsg : String := "An unexpected middleware error occurred while processing the request"

/-- The message `_handler` logs for a handler throw. -/
def handlerLogMsg : String := "An error occurred while processing the request"

/-! ### Store lemmas -/

theorem lookupJs_setJs_self (s : Store) (k : String) (v : Val) :
    lookupJs (setJs s k v) k = some v := by
  induction s with
  | nil => simp [setJs, lookupJs]
  | cons hd tl ih =>
    by_cases h : hd.1 = k
    · simp [setJs, h, lookupJs]
    · simp [setJs, h, lookupJs, ih]

theorem lookupJs_setJs_ne (s : Store) (k k' : String) (v : Val) (h : k ≠ k') :
    lookupJs (setJs s k v) k' = lookupJs s k' := by
  induction s with
  | nil => simp [setJs, lookupJs, h]
  | cons hd tl ih =>
    by_cases hk : hd.1 = k
    · simp [setJs, hk, lookupJs, h]
    · simp [setJs, hk, lookupJs, ih]

theorem isSome_lookupJs_setJs (s : Store) (k k' : String) (v : Val)
    (h : (lookupJs s k').isSome) : (lookupJs (setJs s k v) k').isSome := by
  by_cases hk : k = k'
  · subst hk; simp [lookupJs_setJs_self]
  · rwa [lookupJs_setJs_ne s k k' v hk]

theorem declaredKeys_cons_some (k : String) (sch : Schema)
    (tl : List (String × Option Schema)) :
    declaredKeys ((k, some sch) :: tl) = k :: declaredKeys tl := by
  simp [declaredKeys]

theorem declaredKeys_cons_none (k : String) (tl : List (String × Option Schema)) :
    declaredKeys ((k, none) :: tl) = declaredKeys tl := by
  simp [declaredKeys]

/-! ### validateToOutput lemmas -/

/-- Success of `validateToOutput` is exactly: every declared (non-absent)
schema accepts its input value. -/
theorem vto_none_iff (schemas : List (String × Option Schema)) (input output : Store) :
    (validateToOutput schemas input output).1 = none ↔
      ∀ p ∈ schemas, ∀ sch, p.2 = some sch → (sch (getJs input p.1)).isOk = true := by
  induction schemas generalizing output with
  | nil => simp [validateToOutput]
  | cons hd tl ih =>
    obtain ⟨k, sc⟩ := hd
    cases sc with
    | none => simp [validateToOutput, ih, List.forall_mem_cons]
    | some sch =>
      simp only [validateToOutput]
      cases hres : sch (getJs input k) with
      | err issues => simp [List.forall_mem_cons, hres, VResult.isOk]
      | ok data => simp [ih, List.forall_mem_cons, hres, VResult.isOk]

/-- Keys for which no schema was ever declared are never written and never
blamed: the output binding is untouched and any failure names another key. -/
theorem vto_preserve (schemas : List (String × Option Schema)) (input output : Store)
    (k : String) (h : ∀ s', (k, s') ∈ schemas → s' = none) :
    lookupJs (validateToOutput schemas input output).2.1 k = lookupJs output k ∧
      ∀ f, (validateToOutput schemas input output).1 = some f → f.key ≠ k := by
  induction schemas generalizing output with
  | nil => simp [validateToOutput]
  | cons hd tl ih =>
    obtain ⟨k', sc⟩ := hd
    cases sc with
    | none =>
      exact ih output (fun s' hs' => h s' (List.mem_cons_of_mem _ hs'))
    | some sch =>
      have hkk : k' ≠ k := by
        intro hkk
        subst hkk
        exact Option.noConfusion (h (some sch) (List.mem_cons_self _ _))
      simp only [validateToOutput]
      cases hres : sch (getJs input k') with
      | err issues =>
        refine ⟨rfl, ?_⟩
        intro f hf
        simp only [Option.some.injEq] at hf
        subst hf
        exact hkk
      | ok data =>
        have hrec := ih (setJs output k' data) (fun s' hs' => h s' (List.mem_cons_of_mem _ hs'))
        refine ⟨?_, ?_⟩
        · simpa [lookupJs_setJs_ne output k' k data hkk] using hrec.1
        · simpa using hrec.2

/-- `validateToOutput` only adds bindings: existing keys stay bound. -/
theorem vto_isSome (schemas : List (String × Option Schema)) (input output : Store)
    (k : String) (h : (lookupJs output k).isSome) :
    (lookupJs (validateToOutput schemas input output).2.1 k).isSome := by
  induction schemas generalizing output with
  | nil => simpa [validateToOutput] using h
  | cons hd tl ih =>
    obtain ⟨k', sc⟩ := hd
    cases sc with
    | none => exact ih output h
    | some sch =>
      simp only [validateToOutput]
      cases hres : sch (getJs input k') with
      | err issues => simpa using h
      | ok data =>
        simpa using ih (setJs output k' data) (isSome_lookupJs_setJs output k' k data h)

/-- On success the executed-key trace is exactly the declared keys in order. -/
theorem vto_none_trace (schemas : List (String × Option Schema)) (input output : Store)
    (h : (validateToOutput schemas input output).1 = none) :
    (validateToOutput schemas input output).2.2 = declaredKeys schemas := by
  induction schemas generalizing output with
  | nil => simp [validateToOutput, declaredKeys]
  | cons hd tl ih =>
    obtain ⟨k, sc⟩ := hd
    cases sc with
    | none =>
      rw [declaredKeys_cons_none]
      exact ih output h
    | some sch =>
      cases hres : sch (getJs input k) with
      | err issues =>
        simp [validateToOutput, hres] at h
      | ok data =>
        rw [declaredKeys_cons_some]
        simp only [validateToOutput, hres] at h ⊢
        simpa using ih (setJs output k data) (by simpa using h)

/-- Failure decomposition: a failure `f` splits the schema map into a
passing prefix, the failing entry (whose schema rejects its input with
exactly `f.issues`), and an unexamined tail; the output carries only the
prefix's writes and the trace stops at the failing key. -/
theorem vto_fail_decomp (schemas : List (String × Option Schema)) (input output : Store)
    (f : VFail) (h : (validateToOutput schemas input output).1 = some f) :
    ∃ pre sch post, schemas = pre ++ (f.key, some sch) :: post ∧
      (validateToOutput pre input output).1 = none ∧
      sch (getJs input f.key) = .err f.issues ∧
      (validateToOutput schemas input output).2.1 = (validateToOutput pre input output).2.1 ∧
      (validateToOutput schemas input output).2.2 = declaredKeys pre ++ [f.key] := by
  induction schemas generalizing output with
  | nil => simp [validateToOutput] at h
  | cons hd tl ih =>
    obtain ⟨k, sc⟩ := hd
    cases sc with
    | none =>
      obtain ⟨pre, sch, post, heq, hpre, hfail, hout, htr⟩ := ih output h
      refine ⟨(k, none) :: pre, sch, post, by simp [heq], hpre, hfail, hout, ?_⟩
      rw [declaredKeys_cons_none]
      exact htr
    | some sch0 =>
      cases hres : sch0 (getJs input k) with
      | err issues =>
        simp only [validateToOutput, hres, Option.some.injEq] at h
        subst h
        refine ⟨[], sch0, tl, rfl, by simp [validateToOutput], hres, ?_, ?_⟩
        · simp [validateToOutput, hres]
        · simp [validateToOutput, hres, declaredKeys]
      | ok data =>
        simp only [validateToOutput, hres] at h
        obtain ⟨pre, sch, post, heq, hpre, hfail, hout, htr⟩ :=
          ih (setJs output k data) (by simpa using h)
        refine ⟨(k, some sch0) :: pre, sch, post, by simp [heq], ?_, hfail, ?_, ?_⟩
        · simp [validateToOutput, hres, hpre]
        · simp only [validateToOutput, hres]
          simpa using hout
        · simp only [validateToOutput, hres]
          rw [declaredKeys_cons_some]
          simpa using htr

/-- On success every declared key ends bound to its parsed value
(the pipeline's schema maps have pairwise-distinct keys). -/
theorem vto_none_lookup_mem (schemas : List (String × Option Schema)) (input output : Store)
    (hnd : (schemas.map Prod.fst).Nodup)
    (h : (validateToOutput schemas input output).1 = none)
    (k : String) (sch : Schema) (hmem : (k, some sch) ∈ schemas) :
    ∃ d, sch (getJs input k) = .ok d ∧
      lookupJs (validateToOutput schemas input output).2.1 k = some d := by
  induction schemas generalizing output with
  | nil => simp at hmem
  | cons hd tl ih =>
    obtain ⟨k', sc⟩ := hd
    rcases List.mem_cons.mp hmem with heq | hmem'
    · injection heq with h1 h2
      subst h1
      subst h2
      simp only [validateToOutput] at h ⊢
      cases hres : sch (getJs input k) with
      | err issues => simp [hres] at h
      | ok data =>
        simp only [hres] at h ⊢
        refine ⟨data, rfl, ?_⟩
        have hnotin : ∀ s', (k, s') ∈ tl → s' = none := by
          intro s' hs'
          exfalso
          have hmemk : k ∈ tl.map Prod.fst := List.mem_map.mpr ⟨(k, s'), hs', rfl⟩
          exact (List.nodup_cons.mp hnd).1 hmemk
        have hp := (vto_preserve tl input (setJs output k data) k hnotin).1
        simpa [hp] using lookupJs_setJs_self output k data
    · have hk' : k' ≠ k := by
        intro hkk
        subst hkk
        exact (List.nodup_cons.mp hnd).1 (List.mem_map.mpr ⟨(k', some sch), hmem', rfl⟩)
      cases sc with
      | none =>
        exact ih output (List.nodup_cons.mp hnd).2 h hmem'
      | some sch0 =>
        simp only [validateToOutput] at h ⊢
        cases hres : sch0 (getJs input k') with
        | err issues => simp [hres] at h
        | ok data =>
          simp only [hres] at h ⊢
          obtain ⟨d, hd1, hd2⟩ := ih (setJs output k' data) (List.nodup_cons.mp hnd).2 (by simpa using h) hmem'
          exact ⟨d, hd1, by simpa using hd2⟩

/-! ### Middleware loop lemmas -/

theorem mwEvents_zero (i : Nat) : mwEvents i 0 = [] := by
  simp [mwEvents]

theorem mwEvents_succ (i n : Nat) :
    mwEvents i (n + 1) = Event.ranMiddleware i :: mwEvents (i + 1) n := by
  simp [mwEvents, List.range'_succ]

/-- A chain in which every step returns runs to completion: the loop hands
the folded context on and the trace lists every index in order. -/
theorem runMw_of_runAll (ms : List Middleware) (c cf : Store) (i : Nat)
    (h : runAll ms c = some cf) :
    runMw ms c i = .done cf (mwEvents i ms.length) := by
  induction ms generalizing c i with
  | nil =>
    simp only [runAll, Option.some.injEq] at h
    subst h
    simp [runMw, mwEvents_zero]
  | cons m rest ih =>
    simp only [runAll] at h
    cases hm : m c with
    | ret r c' =>
      simp only [hm] at h
      simp only [runMw, hm, ih (assignRet c' r) (i + 1) h, List.length_cons, mwEvents_succ]
    | throwRapid e c' => simp [hm] at h
    | throwOther v c' => simp [hm] at h

/-- If every step of a prefix returns and the next step throws a
`RapidError`, the loop halts with exactly that envelope, logs nothing, and
never reaches the remaining steps. -/
theorem runMw_halt_rapid (ms1 ms2 : List Middleware) (m : Middleware)
    (c c1 c2 : Store) (e : RapidError) (i : Nat)
    (h1 : runAll ms1 c = some c1) (h2 : m c1 = .throwRapid e c2) :
    runMw (ms1 ++ m :: ms2) c i = .halt (sendError e) [] (mwEvents i (ms1.length + 1)) := by
  induction ms1 generalizing c i with
  | nil =>
    simp only [runAll, Option.some.injEq] at h1
    subst h1
    simp [runMw, h2, mwEvents_succ, mwEvents_zero]
  | cons m0 rest ih =>
    simp only [runAll] at h1
    cases hm : m0 c with
    | ret r c' =>
      simp only [hm] at h1
      have hrec := ih (assignRet c' r) (i + 1) h1
      simp [runMw, hm, hrec, mwEvents_succ]
    | throwRapid e' c' => simp [hm] at h1
    | throwOther v c' => simp [hm] at h1

/-- If every step of a prefix returns and the next step throws a value
that is not a `RapidError`, the loop halts with the sanitized 500
envelope, the original value goes to the error logger, and the remaining
steps never run. -/
theorem runMw_halt_other (ms1 ms2 : List Middleware) (m : Middleware)
    (c c1 c2 : Store) (v : Val) (i : Nat)
    (h1 : runAll ms1 c = some c1) (h2 : m c1 = .throwOther v c2) :
    runMw (ms1 ++ m :: ms2) c i =
      .halt (sendError genericError) [(mwLogMsg, v)] (mwEvents i (ms1.length + 1)) := by
  induction ms1 generalizing c i with
  | nil =>
    simp only [runAll, Option.some.injEq] at h1
    subst h1
    simp only [List.nil_append, runMw, h2, List.length_nil, Nat.zero_add, mwEvents_succ,
      mwEvents_zero]
    rfl
  | cons m0 rest ih =>
    simp only [runAll] at h1
    cases hm : m0 c with
    | ret r c' =>
      simp only [hm] at h1
      have hrec := ih (assignRet c' r) (i + 1) h1
      simp [runMw, hm, hrec, mwEvents_succ]
    | throwRapid e' c' => simp [hm] at h1
    | throwOther v' c' => simp [hm] at h1

/-- Every index in a completed-prefix trace is a middleware event. -/
theorem mem_mwEvents (i n : Nat) (e : Event) (h : e ∈ mwEvents i n) :
    ∃ j, e = Event.ranMiddleware j := by
  simp only [mwEvents, List.mem_map] at h
  obtain ⟨j, _, rfl⟩ := h
  exact ⟨j, rfl⟩

/-- The middleware loop either completes or halts; in both cases every
trace entry is a middleware event, and on a halt for a thrown value the
logs are either empty (RapidError) or the single logged original value. -/
theorem runMw_cases (ms : List Middleware) (c : Store) (i : Nat) :
    (∃ cf tr, runMw ms c i = .done cf tr ∧ ∀ e ∈ tr, ∃ j, e = Event.ranMiddleware j) ∨
    (∃ resp logs tr, runMw ms c i = .halt resp logs tr ∧
      (∀ e ∈ tr, ∃ j, e = Event.ranMiddleware j) ∧
      (logs = [] ∨ ∃ v, logs = [(mwLogMsg, v)] ∧ resp = sendError genericError)) := by
  induction ms generalizing c i with
  | nil =>
    left
    exact ⟨c, [], rfl, by simp⟩
  | cons m rest ih =>
    cases hm : m c with
    | ret r c' =>
      rcases ih (assignRet c' r) (i + 1) with ⟨cf, tr, hd, htr⟩ | ⟨resp, logs, tr, hd, htr, hl⟩
      · left
        refine ⟨cf, Event.ranMiddleware i :: tr, ?_, ?_⟩
        · simp [runMw, hm, hd]
        · intro e he
          rcases List.mem_cons.mp he with rfl | he
          · exact ⟨i, rfl⟩
          · exact htr e he
      · right
        refine ⟨resp, logs, Event.ranMiddleware i :: tr, ?_, ?_, hl⟩
        · simp [runMw, hm, hd]
        · intro e he
          rcases List.mem_cons.mp he with rfl | he
          · exact ⟨i, rfl⟩
          · exact htr e he
    | throwRapid e c' =>
      right
      refine ⟨sendError e, [], [Event.ranMiddleware i], by simp [runMw, hm], ?_, Or.inl rfl⟩
      intro e' he'
      rcases List.mem_cons.mp he' with rfl | he'
      · exact ⟨i, rfl⟩
      · simp at he'
    | throwOther v c' =>
      right
      refine ⟨sendError genericError, [(mwLogMsg, v)], [Event.ranMiddleware i],
        by simp [runMw, hm, genericError, mwLogMsg], ?_, Or.inr ⟨v, rfl, rfl⟩⟩
      intro e' he'
      rcases List.mem_cons.mp he' with rfl | he'
      · exact ⟨i, rfl⟩
      · simp at he'

/-! ### Pipeline dispatch lemmas -/

theorem processRequest_of_fail (route : Route) (req : Store) (f : VFail) (tr : List Event)
    (h : paramsStage route req = .fail f tr) :
    processRequest route req =
      ⟨sendError ⟨"Not Found", 404, some ("Invalid route param " ++ f.key), some f.issues⟩,
       [], tr⟩ := by
  simp [processRequest, h]

theorem processRequest_of_pass (route : Route) (req : Store)
    (req' context' : Store) (tr0 : List Event)
    (h : paramsStage route req = .pass req' context' tr0) :
    processRequest route req = processRest route req' context' tr0 := by
  simp [processRequest, h]

theorem processRest_of_vfail (route : Route) (req context : Store) (tr0 : List Event)
    (f : VFail) (out : Store) (tr : List String)
    (h : validateToOutput route.validators req context = (some f, out, tr)) :
    processRest route req context tr0 =
      ⟨sendError ⟨"Bad Request", 400, some ("Invalid " ++ f.key), some f.issues⟩,
       [], tr0 ++ tr.map Event.validatedChannel⟩ := by
  simp [processRest, h]

theorem processRest_of_mwHalt (route : Route) (req context : Store) (tr0 : List Event)
    (context' : Store) (tr : List String) (resp : Response) (logs : List LogEvent)
    (mtr : List Event)
    (h : validateToOutput route.validators req context = (none, context', tr))
    (hmw : runMw route.middleware context' 0 = .halt resp logs mtr) :
    processRest route req context tr0 =
      ⟨resp, logs, (tr0 ++ tr.map Event.validatedChannel) ++ mtr⟩ := by
  simp [processRest, h, hmw]

theorem processRest_of_handlerRet (route : Route) (req context : Store) (tr0 : List Event)
    (context' : Store) (tr : List String) (cf : Store) (mtr : List Event) (body : Val)
    (h : validateToOutput route.validators req context = (none, context', tr))
    (hmw : runMw route.middleware context' 0 = .done cf mtr)
    (hh : route.handler cf = .ret body) :
    processRest route req context tr0 =
      ⟨Response.success body, [],
       ((tr0 ++ tr.map Event.validatedChannel) ++ mtr) ++ [.ranHandler]⟩ := by
  simp [processRest, h, hmw, hh]

theorem processRest_of_handlerRapid (route : Route) (req context : Store) (tr0 : List Event)
    (context' : Store) (tr : List String) (cf : Store) (mtr : List Event) (e : RapidError)
    (h : validateToOutput route.validators req context = (none, context', tr))
    (hmw : runMw route.middleware context' 0 = .done cf mtr)
    (hh : route.handler cf = .throwRapid e) :
    processRest route req context tr0 =
      ⟨sendError e, [], ((tr0 ++ tr.map Event.validatedChannel) ++ mtr) ++ [.ranHandler]⟩ := by
  simp [processRest, h, hmw, hh]

theorem processRest_of_handlerOther (route : Route) (req context : Store) (tr0 : List Event)
    (context' : Store) (tr : List String) (cf : Store) (mtr : List Event) (v : Val)
    (h : validateToOutput route.validators req context = (none, context', tr))
    (hmw : runMw route.middleware context' 0 = .done cf mtr)
    (hh : route.handler cf = .throwOther v) :
    processRest route req context tr0 =
      ⟨sendError genericError, [(handlerLogMsg, v)],
       ((tr0 ++ tr.map Event.validatedChannel) ++ mtr) ++ [.ranHandler]⟩ := by
  simp [processRest, h, hmw, hh]
  exact ⟨rfl, rfl⟩

/-! ### paramsStage lemmas -/

theorem paramsStage_none (route : Route) (req : Store)
    (h : route.paramsValidator = none) :
    paramsStage route req = .pass req (initialContext req) [] := by
  simp [paramsStage, h]

theorem paramsStage_some_fail (route : Route) (req : Store)
    (pv : List (String × Option Schema)) (f : VFail) (out : Store) (tr : List String)
    (h : route.paramsValidator = some pv)
    (hv : validateToOutput pv (reqParams req) (reqParams req) = (some f, out, tr)) :
    paramsStage route req = .fail f (tr.map Event.validatedParam) := by
  simp [paramsStage, h, hv]

theorem paramsStage_some_pass (route : Route) (req : Store)
    (pv : List (String × Option Schema)) (ps' : Store) (tr : List String)
    (h : route.paramsValidator = some pv)
    (hv : validateToOutput pv (reqParams req) (reqParams req) = (none, ps', tr)) :
    paramsStage route req =
      .pass (setJs req "params" (Val.obj ps'))
        (setJs (initialContext req) "params" (Val.obj ps'))
        (tr.map Event.validatedParam) := by
  simp [paramsStage, h, hv]

/-- Inversion: a params failure comes from the declared params validator
rejecting a param, and its trace holds only param-validation events. -/
theorem paramsStage_fail_inv (route : Route) (req : Store) (f : VFail) (tr : List Event)
    (h : paramsStage route req = .fail f tr) :
    (∃ l : List String, tr = l.map Event.validatedParam) ∧
      ∃ pv, route.paramsValidator = some pv ∧
        (validateToOutput pv (reqParams req) (reqParams req)).1 = some f := by
  cases hp : route.paramsValidator with
  | none => simp [paramsStage, hp] at h
  | some pv =>
    cases hv : validateToOutput pv (reqParams req) (reqParams req) with
    | mk e rest =>
      cases e with
      | none =>
        rw [paramsStage_some_pass route req pv rest.1 rest.2 hp (by rw [hv])] at h
        cases h
      | some f' =>
        rw [paramsStage_some_fail route req pv f' rest.1 rest.2 hp (by rw [hv])] at h
        injection h with h1 h2
        subst h1
        exact ⟨⟨rest.2, h2.symm⟩, pv, rfl, by rw [hv]⟩

/-- Inversion: a params pass leaves every context key other than `params`
as the initial context built it, binds `params`, and traces only
param-validation events. -/
theorem paramsStage_pass_inv (route : Route) (req : Store)
    (req' context' : Store) (tr0 : List Event)
    (h : paramsStage route req = .pass req' context' tr0) :
    (∃ l : List String, tr0 = l.map Event.validatedParam) ∧
      (∀ k, k ≠ "params" → lookupJs context' k = lookupJs (initialContext req) k) ∧
      (lookupJs context' "params").isSome ∧
      (∀ k, k ≠ "params" → getJs req' k = getJs req k) := by
  cases hp : route.paramsValidator with
  | none =>
    rw [paramsStage_none route req hp] at h
    injection h with h1 h2 h3
    subst h1
    subst h2
    subst h3
    refine ⟨⟨[], rfl⟩, fun k _ => rfl, ?_, fun k _ => rfl⟩
    simp [initialContext, lookupJs]
  | some pv =>
    cases hv : validateToOutput pv (reqParams req) (reqParams req) with
    | mk e rest =>
      cases e with
      | some f' =>
        rw [paramsStage_some_fail route req pv f' rest.1 rest.2 hp (by rw [hv])] at h
        cases h
      | none =>
        rw [paramsStage_some_pass route req pv rest.1 rest.2 hp (by rw [hv])] at h
        injection h with h1 h2 h3
        subst h1
        subst h2
        subst h3
        refine ⟨⟨rest.2, rfl⟩, ?_, ?_, ?_⟩
        · intro k hk
          exact lookupJs_setJs_ne (initialContext req) "params" k (Val.obj rest.1)
            (fun he => hk he.symm)
        · simp [lookupJs_setJs_self]
        · intro k hk
          unfold getJs
          rw [lookupJs_setJs_ne req "params" k (Val.obj rest.1) (fun he => hk he.symm)]

theorem lookupJs_initialContext_req (req : Store) :
    lookupJs (initialContext req) "req" = some (Val.obj req) := rfl

theorem lookupJs_initialContext_body (req : Store) :
    lookupJs (initialContext req) "body" = some (getJs req "body") := rfl

theorem lookupJs_initialContext_query (req : Store) :
    lookupJs (initialContext req) "query" = some (getJs req "query") := rfl

theorem lookupJs_initialContext_params (req : Store) :
    lookupJs (initialContext req) "params" = some (getJs req "params") := rfl

theorem lookupJs_initialContext_cookies (req : Store) :
    lookupJs (initialContext req) "cookies" = some (getJs req "cookies") := rfl

theorem lookupJs_initialContext_res (req : Store) :
    lookupJs (initialContext req) "res" = none := rfl

/-! ### Counting helpers -/

theorem count_eq_zero_of_not_ranHandler (l : List Event)
    (h : ∀ e ∈ l, e ≠ Event.ranHandler) : l.count Event.ranHandler = 0 :=
  List.count_eq_zero.mpr (fun hm => h _ hm rfl)

theorem not_ranHandler_map_validatedParam (l : List String) :
    ∀ e ∈ l.map Event.validatedParam, e ≠ Event.ranHandler := by
  intro e he
  obtain ⟨k, _, rfl⟩ := List.mem_map.mp he
  simp

theorem not_ranHandler_map_validatedChannel (l : List String) :
    ∀ e ∈ l.map Event.validatedChannel, e ≠ Event.ranHandler := by
  intro e he
  obtain ⟨k, _, rfl⟩ := List.mem_map.mp he
  simp

/-! ### Combinator lemmas -/

/-- When every component returns, the combinator loop performs exactly the
sequential merge `runAll` and returns `undefined`. -/
theorem combineRun_of_runAll (fns : List Middleware) (c cf : Store)
    (h : runAll fns c = some cf) : combineRun fns c = .ret .undef cf := by
  induction fns generalizing c with
  | nil =>
    simp only [runAll, Option.some.injEq] at h
    subst h
    rfl
  | cons m rest ih =>
    simp only [runAll] at h
    cases hm : m c with
    | ret r c' =>
      simp only [hm] at h
      simp [combineRun, hm, ih (assignRet c' r) h]
    | throwRapid e c' => simp [hm] at h
    | throwOther v c' => simp [hm] at h

/-- Structure eta for triples, to turn projections back into an equation. -/
theorem prod3_eta {A B C : Type} (p : A × B × C) : p = (p.1, p.2.1, p.2.2) := rfl

/-- Master shape of one request: the trace is validation events, then
middleware events, then at most one handler event; the logs are empty or
one unexpected-error entry, in which case the sanitized 500 was sent. -/
theorem processRequest_shape (route : Route) (req : Store) :
    ∃ vtr : List Event,
      (∀ e ∈ vtr, (∃ k, e = Event.validatedParam k) ∨ (∃ k, e = Event.validatedChannel k)) ∧
      (((processRequest route req).trace = vtr ∧ (processRequest route req).logs = []) ∨
       (∃ mtr : List Event, (∀ e ∈ mtr, ∃ j, e = Event.ranMiddleware j) ∧
         (((processRequest route req).trace = vtr ++ mtr ∧
            ((processRequest route req).logs = [] ∨
             ∃ v, (processRequest route req).logs = [(mwLogMsg, v)] ∧
               (processRequest route req).response = sendError genericError)) ∨
          ((processRequest route req).trace = (vtr ++ mtr) ++ [Event.ranHandler] ∧
            ((processRequest route req).logs = [] ∨
             ∃ v, (processRequest route req).logs = [(handlerLogMsg, v)] ∧
               (processRequest route req).response = sendError genericError))))) := by
  cases hps : paramsStage route req with
  | fail f tr =>
    obtain ⟨⟨l, rfl⟩, -⟩ := paramsStage_fail_inv route req f tr hps
    rw [processRequest_of_fail route req f _ hps]
    refine ⟨l.map Event.validatedParam, ?_, Or.inl ⟨rfl, rfl⟩⟩
    intro e he
    obtain ⟨k, -, rfl⟩ := List.mem_map.mp he
    exact Or.inl ⟨k, rfl⟩
  | pass req' ctx tr0 =>
    obtain ⟨⟨l, hl⟩, -, -, -⟩ := paramsStage_pass_inv route req req' ctx tr0 hps
    rw [processRequest_of_pass route req req' ctx tr0 hps]
    rcases hv : validateToOutput route.validators req' ctx with ⟨e1, out1, trc⟩
    have hvset : ∀ e ∈ tr0 ++ trc.map Event.validatedChannel,
        (∃ k, e = Event.validatedParam k) ∨ (∃ k, e = Event.validatedChannel k) := by
      intro e he
      rcases List.mem_append.mp he with he | he
      · subst hl
        obtain ⟨k, -, rfl⟩ := List.mem_map.mp he
        exact Or.inl ⟨k, rfl⟩
      · obtain ⟨k, -, rfl⟩ := List.mem_map.mp he
        exact Or.inr ⟨k, rfl⟩
    cases e1 with
    | some f =>
      rw [processRest_of_vfail route req' ctx tr0 f out1 trc hv]
      exact ⟨tr0 ++ trc.map Event.validatedChannel, hvset, Or.inl ⟨rfl, rfl⟩⟩
    | none =>
      refine ⟨tr0 ++ trc.map Event.validatedChannel, hvset, Or.inr ?_⟩
      rcases runMw_cases route.middleware out1 0 with
        ⟨cf, mtr, hd, hmtr⟩ | ⟨resp, logs, mtr, hd, hmtr, hlg⟩
      · cases hh : route.handler cf with
        | ret body =>
          rw [processRest_of_handlerRet route req' ctx tr0 out1 trc cf mtr body hv hd hh]
          exact ⟨mtr, hmtr, Or.inr ⟨rfl, Or.inl rfl⟩⟩
        | throwRapid e =>
          rw [processRest_of_handlerRapid route req' ctx tr0 out1 trc cf mtr e hv hd hh]
          exact ⟨mtr, hmtr, Or.inr ⟨rfl, Or.inl rfl⟩⟩
        | throwOther v =>
          rw [processRest_of_handlerOther route req' ctx tr0 out1 trc cf mtr v hv hd hh]
          exact ⟨mtr, hmtr, Or.inr ⟨rfl, Or.inr ⟨v, rfl, rfl⟩⟩⟩
      · rw [processRest_of_mwHalt route req' ctx tr0 out1 trc resp logs mtr hv hd]
        rcases hlg with rfl | ⟨v, rfl, rfl⟩
        · exact ⟨mtr, hmtr, Or.inl ⟨rfl, Or.inl rfl⟩⟩
        · exact ⟨mtr, hmtr, Or.inl ⟨rfl, Or.inr ⟨v, rfl, rfl⟩⟩⟩

/-! ### Claim theorems -/

/-- C3: a request failing a declared params validator gets status 404 with
the raw issue list as `cause` (regardless of the other channels, since
params validation runs first); a request passing params whose
body/query/cookies validation fails gets status 400 with that channel's
raw issue list as `cause`. -/
theorem c3_params404_channels400 (route : Route) (req : Store) :
    (∀ f tr, paramsStage route req = .fail f tr →
      (processRequest route req).response =
        sendError ⟨"Not Found", 404, some ("Invalid route param " ++ f.key), some f.issues⟩ ∧
      (processRequest route req).response.status = 404) ∧
    (∀ req' ctx tr0 f out trc, paramsStage route req = .pass req' ctx tr0 →
      validateToOutput route.validators req' ctx = (some f, out, trc) →
      (processRequest route req).response =
        sendError ⟨"Bad Request", 400, some ("Invalid " ++ f.key), some f.issues⟩ ∧
      (processRequest route req).response.status = 400) := by
  constructor
  · intro f tr hps
    rw [processRequest_of_fail route req f tr hps]
    exact ⟨rfl, rfl⟩
  · intro req' ctx tr0 f out trc hps hv
    rw [processRequest_of_pass route req req' ctx tr0 hps,
      processRest_of_vfail route req' ctx tr0 f out trc hv]
    exact ⟨rfl, rfl⟩

/-- C4: once a stage fails nothing later runs.  (1) The handler runs at
most once in every request.  (2) On a params failure the trace holds only
params-validation events: no channel validator, middleware step or handler
ran.  (3) On a body/query/cookies failure no middleware step or handler
ran, and the channel trace stops at the failing key.  (4) If middleware
step `ms1.length` throws, the steps after it and the handler never run. -/
theorem c4_failure_shortCircuits (route : Route) (req : Store) :
    ((processRequest route req).trace.count Event.ranHandler ≤ 1) ∧
    (∀ f tr, paramsStage route req = .fail f tr →
      (processRequest route req).trace = tr ∧
      ∀ e ∈ tr, ∃ k, e = Event.validatedParam k) ∧
    (∀ req' ctx tr0 f out trc, paramsStage route req = .pass req' ctx tr0 →
      validateToOutput route.validators req' ctx = (some f, out, trc) →
      (processRequest route req).trace = tr0 ++ trc.map Event.validatedChannel ∧
      ∃ pre : List String, trc = pre ++ [f.key]) ∧
    (∀ req' ctx tr0 ctx' trc ms1 ms2 c1, ∀ m : Middleware,
      paramsStage route req = .pass req' ctx tr0 →
      validateToOutput route.validators req' ctx = (none, ctx', trc) →
      route.middleware = ms1 ++ m :: ms2 →
      runAll ms1 ctx' = some c1 →
      ((∃ e c2, m c1 = MwStep.throwRapid e c2) ∨ (∃ v c2, m c1 = MwStep.throwOther v c2)) →
      (processRequest route req).trace =
        (tr0 ++ trc.map Event.validatedChannel) ++ mwEvents 0 (ms1.length + 1)) := by
  refine ⟨?_, ?_, ?_, ?_⟩
  · obtain ⟨vtr, hvtr, hcase⟩ := processRequest_shape route req
    have hvtr0 : vtr.count Event.ranHandler = 0 := by
      refine count_eq_zero_of_not_ranHandler vtr (fun e he => ?_)
      rcases hvtr e he with ⟨k, rfl⟩ | ⟨k, rfl⟩ <;> simp
    rcases hcase with ⟨htr, -⟩ | ⟨mtr, hmtr, ⟨htr, -⟩ | ⟨htr, -⟩⟩
    · rw [htr, hvtr0]
      exact Nat.zero_le 1
    · have hmtr0 : mtr.count Event.ranHandler = 0 := by
        refine count_eq_zero_of_not_ranHandler mtr (fun e he => ?_)
        obtain ⟨j, rfl⟩ := hmtr e he
        simp
      rw [htr, List.count_append, hvtr0, hmtr0]
      exact Nat.zero_le 1
    · have hmtr0 : mtr.count Event.ranHandler = 0 := by
        refine count_eq_zero_of_not_ranHandler mtr (fun e he => ?_)
        obtain ⟨j, rfl⟩ := hmtr e he
        simp
      rw [htr, List.count_append, List.count_append, hvtr0, hmtr0]
      simp
  · intro f tr hps
    obtain ⟨⟨l, hl⟩, -⟩ := paramsStage_fail_inv route req f tr hps
    rw [processRequest_of_fail route req f tr hps]
    refine ⟨rfl, ?_⟩
    intro e he
    subst hl
    obtain ⟨k, -, rfl⟩ := List.mem_map.mp he
    exact ⟨k, rfl⟩
  · intro req' ctx tr0 f out trc hps hv
    rw [processRequest_of_pass route req req' ctx tr0 hps,
      processRest_of_vfail route req' ctx tr0 f out trc hv]
    refine ⟨rfl, ?_⟩
    obtain ⟨pre, sch, post, -, -, -, -, htr⟩ :=
      vto_fail_decomp route.validators req' ctx f (by rw [hv])
    rw [hv] at htr
    exact ⟨declaredKeys pre, htr⟩
  · intro req' ctx tr0 ctx' trc ms1 ms2 c1 m hps hv hmw hall hthrow
    rw [processRequest_of_pass route req req' ctx tr0 hps]
    rcases hthrow with ⟨e, c2, hm⟩ | ⟨v, c2, hm⟩
    · have hhalt := runMw_halt_rapid ms1 ms2 m ctx' c1 c2 e 0 hall hm
      rw [← hmw] at hhalt
      rw [processRest_of_mwHalt route req' ctx tr0 ctx' trc (sendError e) []
        (mwEvents 0 (ms1.length + 1)) hv hhalt]
    · have hhalt := runMw_halt_other ms1 ms2 m ctx' c1 c2 v 0 hall hm
      rw [← hmw] at hhalt
      rw [processRest_of_mwHalt route req' ctx tr0 ctx' trc (sendError genericError)
        [(mwLogMsg, v)] (mwEvents 0 (ms1.length + 1)) hv hhalt]

/-- C5: a `RapidError` thrown by a middleware step or by the handler is
sent verbatim as the response body with HTTP status equal to its `code`;
more generally every error envelope the pipeline sends goes out with
status equal to the envelope's `code`. -/
theorem c5_domainError_passthrough (route : Route) (req : Store) :
    (∀ req' ctx tr0 ctx' trc ms1 ms2 c1 c2 e, ∀ m : Middleware,
      paramsStage route req = .pass req' ctx tr0 →
      validateToOutput route.validators req' ctx = (none, ctx', trc) →
      route.middleware = ms1 ++ m :: ms2 →
      runAll ms1 ctx' = some c1 →
      m c1 = MwStep.throwRapid e c2 →
      (processRequest route req).response = sendError e ∧
      (processRequest route req).response.status = e.code) ∧
    (∀ req' ctx tr0 ctx' trc cf mtr e,
      paramsStage route req = .pass req' ctx tr0 →
      validateToOutput route.validators req' ctx = (none, ctx', trc) →
      runMw route.middleware ctx' 0 = .done cf mtr →
      route.handler cf = .throwRapid e →
      (processRequest route req).response = sendError e ∧
      (processRequest route req).response.status = e.code) ∧
    (∀ e, (processRequest route req).response = Response.error e →
      (processRequest route req).response.status = e.code) := by
  refine ⟨?_, ?_, ?_⟩
  · intro req' ctx tr0 ctx' trc ms1 ms2 c1 c2 e m hps hv hmw hall hm
    rw [processRequest_of_pass route req req' ctx tr0 hps]
    have hhalt := runMw_halt_rapid ms1 ms2 m ctx' c1 c2 e 0 hall hm
    rw [← hmw] at hhalt
    rw [processRest_of_mwHalt route req' ctx tr0 ctx' trc (sendError e) []
      (mwEvents 0 (ms1.length + 1)) hv hhalt]
    exact ⟨rfl, rfl⟩
  · intro req' ctx tr0 ctx' trc cf mtr e hps hv hd hh
    rw [processRequest_of_pass route req req' ctx tr0 hps,
      processRest_of_handlerRapid route req' ctx tr0 ctx' trc cf mtr e hv hd hh]
    exact ⟨rfl, rfl⟩
  · intro e he
    rw [he]
    rfl

/-- C6: a non-`RapidError` thrown by a middleware step or by the handler
yields the fixed sanitized 500 envelope (generic name and message, no
`cause`), while the configured error logger receives the original thrown
value; and the logger is invoked only in these cases — whenever the log is
nonempty it is a single unexpected-error entry and the sanitized 500 was
sent, and a params or channel validation failure logs nothing. -/
theorem c6_unexpectedError_sanitized (route : Route) (req : Store) :
    (∀ req' ctx tr0 ctx' trc ms1 ms2 c1 c2 v, ∀ m : Middleware,
      paramsStage route req = .pass req' ctx tr0 →
      validateToOutput route.validators req' ctx = (none, ctx', trc) →
      route.middleware = ms1 ++ m :: ms2 →
      runAll ms1 ctx' = some c1 →
      m c1 = MwStep.throwOther v c2 →
      (processRequest route req).response = sendError genericError ∧
      (processRequest route req).logs = [(mwLogMsg, v)]) ∧
    (∀ req' ctx tr0 ctx' trc cf mtr v,
      paramsStage route req = .pass req' ctx tr0 →
      validateToOutput route.validators req' ctx = (none, ctx', trc) →
      runMw route.middleware ctx' 0 = .done cf mtr →
      route.handler cf = .throwOther v →
      (processRequest route req).response = sendError genericError ∧
      (processRequest route req).logs = [(handlerLogMsg, v)]) ∧
    ((processRequest route req).logs = [] ∨
      ∃ v, (processRequest route req).response = sendError genericError ∧
        ((processRequest route req).logs = [(mwLogMsg, v)] ∨
         (processRequest route req).logs = [(handlerLogMsg, v)])) ∧
    (∀ f tr, paramsStage route req = .fail f tr → (processRequest route req).logs = []) ∧
    (∀ req' ctx tr0 f out trc, paramsStage route req = .pass req' ctx tr0 →
      validateToOutput route.validators req' ctx = (some f, out, trc) →
      (processRequest route req).logs = []) ∧
    (∀ req' ctx tr0 ctx' trc ms1 ms2 c1 c2 e, ∀ m : Middleware,
      paramsStage route req = .pass req' ctx tr0 →
      validateToOutput route.validators req' ctx = (none, ctx', trc) →
      route.middleware = ms1 ++ m :: ms2 →
      runAll ms1 ctx' = some c1 →
      m c1 = MwStep.throwRapid e c2 →
      (processRequest route req).logs = []) ∧
    (∀ req' ctx tr0 ctx' trc cf mtr e,
      paramsStage route req = .pass req' ctx tr0 →
      validateToOutput route.validators req' ctx = (none, ctx', trc) →
      runMw route.middleware ctx' 0 = .done cf mtr →
      route.handler cf = .throwRapid e →
      (processRequest route req).logs = []) := by
  refine ⟨?_, ?_, ?_, ?_, ?_, ?_, ?_⟩
  · intro req' ctx tr0 ctx' trc ms1 ms2 c1 c2 v m hps hv hmw hall hm
    rw [processRequest_of_pass route req req' ctx tr0 hps]
    have hhalt := runMw_halt_other ms1 ms2 m ctx' c1 c2 v 0 hall hm
    rw [← hmw] at hhalt
    rw [processRest_of_mwHalt route req' ctx tr0 ctx' trc (sendError genericError)
      [(mwLogMsg, v)] (mwEvents 0 (ms1.length + 1)) hv hhalt]
    exact ⟨rfl, rfl⟩
  · intro req' ctx tr0 ctx' trc cf mtr v hps hv hd hh
    rw [processRequest_of_pass route req req' ctx tr0 hps,
      processRest_of_handlerOther route req' ctx tr0 ctx' trc cf mtr v hv hd hh]
    exact ⟨rfl, rfl⟩
  · obtain ⟨vtr, -, hcase⟩ := processRequest_shape route req
    rcases hcase with ⟨-, hlog⟩ | ⟨mtr, -, ⟨-, hlog⟩ | ⟨-, hlog⟩⟩
    · exact Or.inl hlog
    · rcases hlog with hlog | ⟨v, hlog, hresp⟩
      · exact Or.inl hlog
      · exact Or.inr ⟨v, hresp, Or.inl hlog⟩
    · rcases hlog with hlog | ⟨v, hlog, hresp⟩
      · exact Or.inl hlog
      · exact Or.inr ⟨v, hresp, Or.inr hlog⟩
  · intro f tr hps
    rw [processRequest_of_fail route req f tr hps]
  · intro req' ctx tr0 f out trc hps hv
    rw [processRequest_of_pass route req req' ctx tr0 hps,
      processRest_of_vfail route req' ctx tr0 f out trc hv]
  · intro req' ctx tr0 ctx' trc ms1 ms2 c1 c2 e m hps hv hmw hall hm
    rw [processRequest_of_pass route req req' ctx tr0 hps]
    have hhalt := runMw_halt_rapid ms1 ms2 m ctx' c1 c2 e 0 hall hm
    rw [← hmw] at hhalt
    rw [processRest_of_mwHalt route req' ctx tr0 ctx' trc (sendError e) []
      (mwEvents 0 (ms1.length + 1)) hv hhalt]
  · intro req' ctx tr0 ctx' trc cf mtr e hps hv hd hh
    rw [processRequest_of_pass route req req' ctx tr0 hps,
      processRest_of_handlerRapid route req' ctx tr0 ctx' trc cf mtr e hv hd hh]

/-- C7: a channel (body, query or cookies; or params when no params
validator is declared) with no declared schema is never the cause of a
rejection, and the context handed to the middleware chain carries for it
exactly the raw transport value of the request. -/
theorem c7_noValidator_passthrough (route : Route) (req : Store)
    (req' ctx : Store) (tr0 : List Event) (k : String)
    (hps : paramsStage route req = .pass req' ctx tr0)
    (hnone : ∀ s', (k, s') ∈ route.validators → s' = none)
    (hk : k = "body" ∨ k = "query" ∨ k = "cookies" ∨
      (k = "params" ∧ route.paramsValidator = none)) :
    (∀ f, (validateToOutput route.validators req' ctx).1 = some f → f.key ≠ k) ∧
    (∀ ctx' trc, validateToOutput route.validators req' ctx = (none, ctx', trc) →
      lookupJs ctx' k = some (getJs req k)) := by
  have hpre := vto_preserve route.validators req' ctx k hnone
  refine ⟨hpre.2, ?_⟩
  intro ctx' trc hv
  have h1 : lookupJs ctx' k = lookupJs ctx k := by
    have := hpre.1
    rw [hv] at this
    exact this
  obtain ⟨-, hctx, -, -⟩ := paramsStage_pass_inv route req req' ctx tr0 hps
  rcases hk with rfl | rfl | rfl | ⟨rfl, hpn⟩
  · rw [h1, hctx "body" (by decide), lookupJs_initialContext_body]
  · rw [h1, hctx "query" (by decide), lookupJs_initialContext_query]
  · rw [h1, hctx "cookies" (by decide), lookupJs_initialContext_cookies]
  · have hpass := paramsStage_none route req hpn
    rw [hps] at hpass
    injection hpass with h2 h3 h4
    subst h2
    subst h3
    rw [h1, lookupJs_initialContext_params]

/-- C9: the `middleware` combinator applied to a single function is that
function itself; applied to two or more functions it yields one middleware
whose effect on the context is exactly the sequential merge of the
components in declaration order (`runAll`), while its own return value is
`undefined` rather than the union of the components' additions. -/
theorem c9_middlewareCombinator :
    (∀ m : Middleware, middlewareCombine [m] = m) ∧
    (∀ fns : List Middleware, ∀ c cf : Store, 2 ≤ fns.length →
      runAll fns c = some cf → middlewareCombine fns c = .ret .undef cf) := by
  constructor
  · intro m
    rfl
  · intro fns c cf hlen hrun
    cases fns with
    | nil => simp at hlen
    | cons a tl =>
      cases tl with
      | nil => simp at hlen
      | cons b rest => exact combineRun_of_runAll (a :: b :: rest) c cf hrun

/-- C10: `validateToOutput` succeeds (returns no failure) iff every
non-absent schema accepts its input value, and then every declared key is
bound in the output to its parsed value; on failure it reports the first
failing key in iteration order with that validator's issues, the output
carries exactly the writes of the passing prefix — keys not written by
that prefix, in particular all later keys, are unmodified; keys whose
schema entry is absent are skipped: never written, never blamed. -/
theorem c10_validateToOutput_spec (schemas : List (String × Option Schema))
    (input output : Store) :
    ((validateToOutput schemas input output).1 = none ↔
      ∀ p ∈ schemas, ∀ sch, p.2 = some sch → (sch (getJs input p.1)).isOk = true) ∧
    ((schemas.map Prod.fst).Nodup →
      (validateToOutput schemas input output).1 = none →
      ∀ k, ∀ sch : Schema, (k, some sch) ∈ schemas →
        ∃ d, sch (getJs input k) = .ok d ∧
          lookupJs (validateToOutput schemas input output).2.1 k = some d) ∧
    (∀ f, (validateToOutput schemas input output).1 = some f →
      ∃ pre sch post, schemas = pre ++ (f.key, some sch) :: post ∧
        (validateToOutput pre input output).1 = none ∧
        sch (getJs input f.key) = .err f.issues ∧
        (validateToOutput schemas input output).2.1 = (validateToOutput pre input output).2.1 ∧
        ∀ k', (∀ s', (k', s') ∈ pre → s' = none) →
          lookupJs (validateToOutput schemas input output).2.1 k' = lookupJs output k') ∧
    (∀ k, (∀ s', (k, s') ∈ schemas → s' = none) →
      lookupJs (validateToOutput schemas input output).2.1 k = lookupJs output k ∧
      ∀ f, (validateToOutput schemas input output).1 = some f → f.key ≠ k) := by
  refine ⟨vto_none_iff schemas input output, ?_, ?_, ?_⟩
  · intro hnd h k sch hmem
    exact vto_none_lookup_mem schemas input output hnd h k sch hmem
  · intro f hf
    obtain ⟨pre, sch, post, heq, hpre, hfail, hout, htr⟩ :=
      vto_fail_decomp schemas input output f hf
    refine ⟨pre, sch, post, heq, hpre, hfail, hout, ?_⟩
    intro k' hk'
    rw [hout]
    exact (vto_preserve pre input output k' hk').1
  · intro k hk
    exact vto_preserve schemas input output k hk

/-! ### Concrete example material -/

/-- A schema that accepts any value unchanged. -/
def okSchema : Schema := fun v => .ok v

/-- A schema that rejects every value with a fixed issue list. -/
def failSchema (msg : String) : Schema := fun _ => .err (.str msg)

/-- A middleware step that returns one added key and leaves the context
it was handed untouched. -/
def mwAdd (k : String) (v : Val) : Middleware := fun c => .ret (.obj [(k, v)]) c

/-- A handler answering with the context value of one key. -/
def hGet (k : String) : Handler := fun c => .ret (getJs c k)

/-- A handler answering with a constant string. -/
def hConst (s : String) : Handler := fun _ => .ret (.str s)

/-- A concrete transport request. -/
def exReq : Store :=
  [("body", Val.num 1), ("query", Val.num 2),
   ("params", Val.obj [("id", Val.str "7")]), ("cookies", Val.num 3)]

/-- A route whose second middleware step adds a key the first step already
added — the collision the spec says should fail with a 500 and a log. -/
def c1Route : Route :=
  ⟨none, [], [mwAdd "a" (Val.num 1), mwAdd "a" (Val.num 2)], hGet "a"⟩

/-- C1 counterexample: on a route whose second middleware step returns key
`a` already added by the first step, the request does NOT fail: the
handler runs, answers 200 with the overwritten value, and nothing at all
is passed to the error logger — refuting the claimed 500-with-logging. -/
theorem c1_counterexample :
    (processRequest c1Route exReq).response = Response.success (Val.num 2) ∧
    (processRequest c1Route exReq).logs = [] :=
  ⟨rfl, rfl⟩

/-- C1 amended: a middleware step whose returned object carries a key
already present in the context does not fail the request: the loop simply
`Object.assign`s the addition, silently overwriting the existing binding
(the new value wins), and continues with the next step with nothing
logged; collision prevention exists only in the type system. -/
theorem c1_contextCollision_overwrites (m : Middleware) (rest : List Middleware)
    (c c' : Store) (k : String) (v : Val) (i : Nat)
    (h : m c = .ret (.obj [(k, v)]) c') :
    (∀ cf tr, runMw rest (setJs c' k v) (i + 1) = .done cf tr →
      runMw (m :: rest) c i = .done cf (Event.ranMiddleware i :: tr)) ∧
    (∀ resp logs tr, runMw rest (setJs c' k v) (i + 1) = .halt resp logs tr →
      runMw (m :: rest) c i = .halt resp logs (Event.ranMiddleware i :: tr)) ∧
    lookupJs (setJs c' k v) k = some v := by
  refine ⟨?_, ?_, lookupJs_setJs_self c' k v⟩
  · intro cf tr hrec
    simp [runMw, h, assignRet, assignStore, hrec]
  · intro resp logs tr hrec
    simp [runMw, h, assignRet, assignStore, hrec]

theorem c1_contextCollision_overwrites_witness :
    runMw [mwAdd "a" (Val.num 2)] [("a", Val.num 1)] 0 =
      .done [("a", Val.num 2)] [Event.ranMiddleware 0] ∧
    lookupJs (setJs [("a", Val.num 1)] "a" (Val.num 2)) "a" = some (Val.num 2) := by
  have h := c1_contextCollision_overwrites (mwAdd "a" (Val.num 2)) []
    [("a", Val.num 1)] [("a", Val.num 1)] "a" (Val.num 2) 0 rfl
  exact ⟨h.1 [("a", Val.num 2)] [] rfl, h.2.2⟩

/-- A route declaring validators for all of body, query and cookies, but
in the declaration order query, body, cookies. -/
def c2Route : Route :=
  ⟨none,
   [("query", some (failSchema "bad query")), ("body", some (failSchema "bad body")),
    ("cookies", some okSchema)],
   [], hConst "ok"⟩

/-- C2 counterexample: a route with validators for body, query and
cookies (declared query-first) and a request invalid in both body and
query answers with the QUERY error, not the body error — the failing
channel is picked by declaration order, not by a fixed
body-query-cookies order. -/
theorem c2_counterexample :
    (processRequest c2Route exReq).response =
      sendError ⟨"Bad Request", 400, some "Invalid query", some (Val.str "bad query")⟩ :=
  rfl

/-- C2 amended: the 400 names the first failing channel in the validator
map's declaration (insertion) order; when the route declares body, query,
cookies in that order, an invalid body always wins over an invalid query,
and with a valid body an invalid query wins over cookies. -/
theorem c2_validationOrder_declarationOrder (route : Route) (req req' ctx : Store)
    (tr0 : List Event) (sb sq sc : Schema)
    (hps : paramsStage route req = .pass req' ctx tr0)
    (hv : route.validators =
      [("body", some sb), ("query", some sq), ("cookies", some sc)]) :
    (∀ i, sb (getJs req' "body") = .err i →
      (processRequest route req).response =
        sendError ⟨"Bad Request", 400, some "Invalid body", some i⟩) ∧
    (∀ db i, sb (getJs req' "body") = .ok db → sq (getJs req' "query") = .err i →
      (processRequest route req).response =
        sendError ⟨"Bad Request", 400, some "Invalid query", some i⟩) := by
  constructor
  · intro i hi
    rw [processRequest_of_pass route req req' ctx tr0 hps]
    have hv2 : validateToOutput route.validators req' ctx =
        (some ⟨"body", i⟩, ctx, ["body"]) := by
      rw [hv]
      simp [validateToOutput, hi]
    rw [processRest_of_vfail route req' ctx tr0 ⟨"body", i⟩ ctx ["body"] hv2]
    rfl
  · intro db i hb hq
    rw [processRequest_of_pass route req req' ctx tr0 hps]
    have hv2 : validateToOutput route.validators req' ctx =
        (some ⟨"query", i⟩, setJs ctx "body" db, ["body", "query"]) := by
      rw [hv]
      simp [validateToOutput, hb, hq]
    rw [processRest_of_vfail route req' ctx tr0 ⟨"query", i⟩
      (setJs ctx "body" db) ["body", "query"] hv2]
    rfl

/-- A body-query-cookies route (declared in that order) with body and
query both invalid. -/
def c2wRouteA : Route :=
  ⟨none,
   [("body", some (failSchema "bb")), ("query", some (failSchema "qq")),
    ("cookies", some okSchema)],
   [], hConst "ok"⟩

/-- A body-query-cookies route with a valid body and an invalid query. -/
def c2wRouteB : Route :=
  ⟨none,
   [("body", some okSchema), ("query", some (failSchema "qq")),
    ("cookies", some okSchema)],
   [], hConst "ok"⟩

theorem c2_validationOrder_declarationOrder_witness :
    (processRequest c2wRouteA exReq).response =
      sendError ⟨"Bad Request", 400, some "Invalid body", some (Val.str "bb")⟩ ∧
    (processRequest c2wRouteB exReq).response =
      sendError ⟨"Bad Request", 400, some "Invalid query", some (Val.str "qq")⟩ := by
  constructor
  · exact (c2_validationOrder_declarationOrder c2wRouteA exReq exReq
      (initialContext exReq) [] (failSchema "bb") (failSchema "qq") okSchema rfl rfl).1
      (Val.str "bb") rfl
  · exact (c2_validationOrder_declarationOrder c2wRouteB exReq exReq
      (initialContext exReq) [] okSchema (failSchema "qq") okSchema rfl rfl).2
      (Val.num 1) (Val.str "qq") rfl rfl

/-- A handler that reports whether the context carries a `res` key. -/
def c8Handler : Handler := fun c =>
  .ret (match lookupJs c "res" with
        | some _ => Val.str "present"
        | none => Val.str "absent")

def c8Route : Route := ⟨none, [], [], c8Handler⟩

/-- C8 counterexample: the context assembled before the middleware chain
holds no response handle — a handler looking for a `res` key observes it
absent, and the initial context literal has no such binding (it carries
only `req` and the four channels). -/
theorem c8_counterexample :
    (processRequest c8Route exReq).response = Response.success (Val.str "absent") ∧
    lookupJs (initialContext exReq) "res" = none :=
  ⟨rfl, rfl⟩

/-- C8 amended: the context the middleware chain starts from carries the
raw request handle under `req` and bindings for all of body, query,
params and cookies — but no response handle: the response is written only
through the pipeline itself. -/
theorem c8_initialContext_contents (route : Route) (req : Store)
    (req' ctx : Store) (tr0 : List Event) (ctx' : Store) (trc : List String)
    (hps : paramsStage route req = .pass req' ctx tr0)
    (hv : validateToOutput route.validators req' ctx = (none, ctx', trc))
    (hres : ∀ s', ("res", s') ∈ route.validators → s' = none)
    (hreq : ∀ s', ("req", s') ∈ route.validators → s' = none) :
    lookupJs ctx' "res" = none ∧
    lookupJs ctx' "req" = some (Val.obj req) ∧
    (lookupJs ctx' "body").isSome ∧ (lookupJs ctx' "query").isSome ∧
    (lookupJs ctx' "params").isSome ∧ (lookupJs ctx' "cookies").isSome := by
  obtain ⟨-, hctx, hparams, -⟩ := paramsStage_pass_inv route req req' ctx tr0 hps
  have hres1 : lookupJs ctx' "res" = lookupJs ctx "res" := by
    have hp := (vto_preserve route.validators req' ctx "res" hres).1
    rw [hv] at hp
    exact hp
  have hreq1 : lookupJs ctx' "req" = lookupJs ctx "req" := by
    have hp := (vto_preserve route.validators req' ctx "req" hreq).1
    rw [hv] at hp
    exact hp
  refine ⟨?_, ?_, ?_, ?_, ?_, ?_⟩
  · rw [hres1, hctx "res" (by decide), lookupJs_initialContext_res]
  · rw [hreq1, hctx "req" (by decide), lookupJs_initialContext_req]
  · have hb : (lookupJs ctx "body").isSome := by
      rw [hctx "body" (by decide), lookupJs_initialContext_body]
      rfl
    have h2 := vto_isSome route.validators req' ctx "body" hb
    rw [hv] at h2
    exact h2
  · have hb : (lookupJs ctx "query").isSome := by
      rw [hctx "query" (by decide), lookupJs_initialContext_query]
      rfl
    have h2 := vto_isSome route.validators req' ctx "query" hb
    rw [hv] at h2
    exact h2
  · have h2 := vto_isSome route.validators req' ctx "params" hparams
    rw [hv] at h2
    exact h2
  · have hb : (lookupJs ctx "cookies").isSome := by
      rw [hctx "cookies" (by decide), lookupJs_initialContext_cookies]
      rfl
    have h2 := vto_isSome route.validators req' ctx "cookies" hb
    rw [hv] at h2
    exact h2

def c8wRoute : Route := ⟨none, [("body", some okSchema)], [], hConst "ok"⟩

theorem c8_initialContext_contents_witness :
    lookupJs (setJs (initialContext exReq) "body" (Val.num 1)) "res" = none ∧
    lookupJs (setJs (initialContext exReq) "body" (Val.num 1)) "req" =
      some (Val.obj exReq) ∧
    (lookupJs (setJs (initialContext exReq) "body" (Val.num 1)) "body").isSome ∧
    (lookupJs (setJs (initialContext exReq) "body" (Val.num 1)) "query").isSome ∧
    (lookupJs (setJs (initialContext exReq) "body" (Val.num 1)) "params").isSome ∧
    (lookupJs (setJs (initialContext exReq) "body" (Val.num 1)) "cookies").isSome := by
  refine c8_initialContext_contents c8wRoute exReq exReq (initialContext exReq) []
    (setJs (initialContext exReq) "body" (Val.num 1)) ["body"] rfl rfl ?_ ?_
  · intro s' h
    simp [c8wRoute] at h
  · intro s' h
    simp [c8wRoute] at h

/-! ### Remaining witnesses -/

/-- A route with a params validator that rejects. -/
def c3wRouteP : Route := ⟨some [("id", some (failSchema "no"))], [], [], hConst "ok"⟩

theorem c3_params404_channels400_witness :
    ((processRequest c3wRouteP exReq).response =
      sendError ⟨"Not Found", 404, some "Invalid route param id", some (Val.str "no")⟩ ∧
     (processRequest c3wRouteP exReq).response.status = 404) ∧
    ((processRequest c2wRouteA exReq).response =
      sendError ⟨"Bad Request", 400, some "Invalid body", some (Val.str "bb")⟩ ∧
     (processRequest c2wRouteA exReq).response.status = 400) := by
  constructor
  · exact (c3_params404_channels400 c3wRouteP exReq).1 ⟨"id", Val.str "no"⟩
      [Event.validatedParam "id"] rfl
  · exact (c3_params404_channels400 c2wRouteA exReq).2 exReq (initialContext exReq) []
      ⟨"body", Val.str "bb"⟩ (initialContext exReq) ["body"] rfl rfl

/-- A middleware step that throws a domain error. -/
def mwThrowRapid (e : RapidError) : Middleware := fun c => .throwRapid e c

/-- A middleware step that throws a non-domain value. -/
def mwThrowOther (v : Val) : Middleware := fun c => .throwOther v c

/-- A handler that throws a domain error. -/
def hThrowRapid (e : RapidError) : Handler := fun _ => .throwRapid e

/-- A handler that throws a non-domain value. -/
def hThrowOther (v : Val) : Handler := fun _ => .throwOther v

/-- A concrete domain error. -/
def exErr : RapidError := ⟨"NOT_FOUND", 404, some "User not found", none⟩

def c4wRoute : Route := ⟨none, [], [mwThrowRapid exErr], hConst "ok"⟩

theorem c4_failure_shortCircuits_witness :
    ((processRequest c1Route exReq).trace.count Event.ranHandler ≤ 1) ∧
    ((processRequest c3wRouteP exReq).trace = [Event.validatedParam "id"] ∧
      ∀ e ∈ [Event.validatedParam "id"], ∃ k, e = Event.validatedParam k) ∧
    ((processRequest c2wRouteA exReq).trace = [] ++ List.map Event.validatedChannel ["body"] ∧
      ∃ pre : List String, ["body"] = pre ++ ["body"]) ∧
    ((processRequest c4wRoute exReq).trace =
      ([] ++ List.map Event.validatedChannel []) ++ mwEvents 0 1) := by
  refine ⟨(c4_failure_shortCircuits c1Route exReq).1, ?_, ?_, ?_⟩
  · exact (c4_failure_shortCircuits c3wRouteP exReq).2.1 ⟨"id", Val.str "no"⟩
      [Event.validatedParam "id"] rfl
  · exact (c4_failure_shortCircuits c2wRouteA exReq).2.2.1 exReq (initialContext exReq) []
      ⟨"body", Val.str "bb"⟩ (initialContext exReq) ["body"] rfl rfl
  · exact (c4_failure_shortCircuits c4wRoute exReq).2.2.2 exReq (initialContext exReq) []
      (initialContext exReq) [] [] [] (initialContext exReq) (mwThrowRapid exErr)
      rfl rfl rfl rfl (Or.inl ⟨exErr, initialContext exReq, rfl⟩)

def c5wRoute : Route := ⟨none, [], [], hThrowRapid exErr⟩

theorem c5_domainError_passthrough_witness :
    ((processRequest c4wRoute exReq).response = sendError exErr ∧
     (processRequest c4wRoute exReq).response.status = exErr.code) ∧
    ((processRequest c5wRoute exReq).response = sendError exErr ∧
     (processRequest c5wRoute exReq).response.status = exErr.code) ∧
    (processRequest c5wRoute exReq).response.status = exErr.code := by
  refine ⟨?_, ?_, ?_⟩
  · exact (c5_domainError_passthrough c4wRoute exReq).1 exReq (initialContext exReq) []
      (initialContext exReq) [] [] [] (initialContext exReq) (initialContext exReq) exErr
      (mwThrowRapid exErr) rfl rfl rfl rfl rfl
  · exact (c5_domainError_passthrough c5wRoute exReq).2.1 exReq (initialContext exReq) []
      (initialContext exReq) [] (initialContext exReq) [] exErr rfl rfl rfl rfl
  · exact (c5_domainError_passthrough c5wRoute exReq).2.2 exErr rfl

def c6wRouteM : Route := ⟨none, [], [mwThrowOther (Val.str "boom")], hConst "ok"⟩

def c6wRouteH : Route := ⟨none, [], [], hThrowOther (Val.str "boom")⟩

theorem c6_unexpectedError_sanitized_witness :
    ((processRequest c6wRouteM exReq).response = sendError genericError ∧
     (processRequest c6wRouteM exReq).logs = [(mwLogMsg, Val.str "boom")]) ∧
    ((processRequest c6wRouteH exReq).response = sendError genericError ∧
     (processRequest c6wRouteH exReq).logs = [(handlerLogMsg, Val.str "boom")]) ∧
    ((processRequest c6wRouteH exReq).logs = [] ∨
      ∃ v, (processRequest c6wRouteH exReq).response = sendError genericError ∧
        ((processRequest c6wRouteH exReq).logs = [(mwLogMsg, v)] ∨
         (processRequest c6wRouteH exReq).logs = [(handlerLogMsg, v)])) ∧
    (processRequest c3wRouteP exReq).logs = [] ∧
    (processRequest c2wRouteA exReq).logs = [] ∧
    (processRequest c4wRoute exReq).logs = [] ∧
    (processRequest c5wRoute exReq).logs = [] := by
  refine ⟨?_, ?_, ?_, ?_, ?_, ?_, ?_⟩
  · exact (c6_unexpectedError_sanitized c6wRouteM exReq).1 exReq (initialContext exReq) []
      (initialContext exReq) [] [] [] (initialContext exReq) (initialContext exReq)
      (Val.str "boom") (mwThrowOther (Val.str "boom")) rfl rfl rfl rfl rfl
  · exact (c6_unexpectedError_sanitized c6wRouteH exReq).2.1 exReq (initialContext exReq) []
      (initialContext exReq) [] (initialContext exReq) [] (Val.str "boom") rfl rfl rfl rfl
  · exact (c6_unexpectedError_sanitized c6wRouteH exReq).2.2.1
  · exact (c6_unexpectedError_sanitized c3wRouteP exReq).2.2.2.1 ⟨"id", Val.str "no"⟩
      [Event.validatedParam "id"] rfl
  · exact (c6_unexpectedError_sanitized c2wRouteA exReq).2.2.2.2.1 exReq
      (initialContext exReq) [] ⟨"body", Val.str "bb"⟩ (initialContext exReq) ["body"] rfl rfl
  · exact (c6_unexpectedError_sanitized c4wRoute exReq).2.2.2.2.2.1 exReq
      (initialContext exReq) [] (initialContext exReq) [] [] [] (initialContext exReq)
      (initialContext exReq) exErr (mwThrowRapid exErr) rfl rfl rfl rfl rfl
  · exact (c6_unexpectedError_sanitized c5wRoute exReq).2.2.2.2.2.2 exReq
      (initialContext exReq) [] (initialContext exReq) [] (initialContext exReq) [] exErr
      rfl rfl rfl rfl

/-- A route with a body validator only — cookies has no declared schema. -/
def c7wRoute : Route := ⟨none, [("body", some okSchema)], [], hConst "ok"⟩

/-- A route whose body validator rejects, with cookies undeclared. -/
def c7wRouteF : Route := ⟨none, [("body", some (failSchema "bb"))], [], hConst "ok"⟩

theorem c7_noValidator_passthrough_witness :
    (VFail.key ⟨"body", Val.str "bb"⟩ ≠ "cookies") ∧
    lookupJs (setJs (initialContext exReq) "body" (Val.num 1)) "cookies" =
      some (getJs exReq "cookies") := by
  constructor
  · exact (c7_noValidator_passthrough c7wRouteF exReq exReq (initialContext exReq) []
      "cookies" rfl (fun s' h => by simp [c7wRouteF] at h)
      (Or.inr (Or.inr (Or.inl rfl)))).1 ⟨"body", Val.str "bb"⟩ rfl
  · exact (c7_noValidator_passthrough c7wRoute exReq exReq (initialContext exReq) []
      "cookies" rfl (fun s' h => by simp [c7wRoute] at h)
      (Or.inr (Or.inr (Or.inl rfl)))).2
      (setJs (initialContext exReq) "body" (Val.num 1)) ["body"] rfl

theorem c9_middlewareCombinator_witness :
    middlewareCombine [mwAdd "a" (Val.num 1), mwAdd "b" (Val.num 2)] [] =
      .ret .undef [("a", Val.num 1), ("b", Val.num 2)] :=
  c9_middlewareCombinator.2 [mwAdd "a" (Val.num 1), mwAdd "b" (Val.num 2)] []
    [("a", Val.num 1), ("b", Val.num 2)] (by decide) rfl

def c10Schemas : List (String × Option Schema) :=
  [("a", some okSchema), ("b", none), ("c", some (failSchema "x"))]

def c10SchemasOk : List (String × Option Schema) :=
  [("a", some okSchema), ("b", none)]

theorem c10_validateToOutput_spec_witness :
    (∃ d, okSchema (getJs exReq "a") = .ok d ∧
      lookupJs (validateToOutput c10SchemasOk exReq []).2.1 "a" = some d) ∧
    (∃ pre sch post, c10Schemas = pre ++ (VFail.key ⟨"c", Val.str "x"⟩, some sch) :: post ∧
      (validateToOutput pre exReq []).1 = none ∧
      sch (getJs exReq (VFail.key ⟨"c", Val.str "x"⟩)) =
        .err (VFail.issues ⟨"c", Val.str "x"⟩) ∧
      (validateToOutput c10Schemas exReq []).2.1 = (validateToOutput pre exReq []).2.1 ∧
      ∀ k', (∀ s', (k', s') ∈ pre → s' = none) →
        lookupJs (validateToOutput c10Schemas exReq []).2.1 k' = lookupJs ([] : Store) k') ∧
    (lookupJs (validateToOutput c10Schemas exReq []).2.1 "zz" = lookupJs ([] : Store) "zz" ∧
      ∀ f, (validateToOutput c10Schemas exReq []).1 = some f → f.key ≠ "zz") := by
  refine ⟨?_, ?_, ?_⟩
  · exact (c10_validateToOutput_spec c10SchemasOk exReq []).2.1 (by decide) rfl "a" okSchema
      (List.mem_cons_self _ _)
  · exact (c10_validateToOutput_spec c10Schemas exReq []).2.2.1 ⟨"c", Val.str "x"⟩ rfl
  · exact (c10_validateToOutput_spec c10Schemas exReq []).2.2.2 "zz"
      (fun s' h => by simp [c10Schemas] at h)

end Rapid
